import Mathlib

/-!
# Verification of nof1-tracker: capital allocation and risk management

A shallow embedding of the capital allocator
(`src/services/futures-capital-manager.ts`, class `FuturesCapitalManager`)
and the risk evaluator (`RiskManager`), with theorems checking the
specification claims against the embedded code.

Modelling conventions:
* JavaScript numbers are modelled as exact rationals (`ℚ`); the claims are
  about exact arithmetic (floor, sums, sign tests), not about binary
  floating point artefacts.
* `Math.floor` is `Int.floor`; `Math.round` (half toward positive
  infinity) is `fun x => ⌊x + 1/2⌋`.
* Optional parameters (`x?: number`) are `Option ℚ`.  JavaScript
  truthiness tests on numbers (`x || d`, `if (x && _)`) treat both
  `undefined` and `0` as absent; this is modelled explicitly by the
  `jsOrQ` / `truthyQ` / `jsMinInf` helpers.
* Display-only strings built with `toFixed` interpolation (the `reason`
  field, console warnings, `formatAmount`) are not modelled; they carry
  no decision logic.
-/

namespace Nof1

/-- Order side, the string union `"BUY" | "SELL"` of the source. -/
inductive Side where
  | BUY : Side
  | SELL : Side
deriving DecidableEq, Repr

/-- The fields of `Position` (from `src/scripts/analyze-api`) that the
capital manager reads: `symbol`, signed `quantity`, `leverage`, `margin`
and `current_price`.  Remaining fields (entry price, order ids, pnl,
exit plan) are never read by the embedded functions and are omitted. -/
structure Position where
  symbol : String
  quantity : ℚ
  leverage : ℚ
  margin : ℚ
  current_price : ℚ
deriving DecidableEq, Repr

/-- `CapitalAllocation` of the source.  `allocatedMargin` and
`notionalValue` are integers because the source floors them before
storing. -/
structure CapitalAllocation where
  symbol : String
  originalMargin : ℚ
  allocatedMargin : ℤ
  notionalValue : ℤ
  adjustedQuantity : ℚ
  allocationRatio : ℚ
  leverage : ℚ
  side : Side
deriving DecidableEq, Repr

/-- `CapitalAllocationResult` of the source. -/
structure CapitalAllocationResult where
  totalOriginalMargin : ℚ
  totalAllocatedMargin : ℤ
  totalNotionalValue : ℤ
  allocations : List CapitalAllocation
deriving DecidableEq, Repr

/-- JavaScript `x || d` for an optional number `x`: both `undefined` and
`0` fall through to the default. -/
def jsOrQ (x : Option ℚ) (d : ℚ) : ℚ :=
  match x with
  | some v => if v = 0 then d else v
  | none => d

/-- JavaScript truthiness of an optional number: present and nonzero. -/
def truthyQ (x : Option ℚ) : Bool :=
  match x with
  | some v => decide (v ≠ 0)
  | none => false

/-- JavaScript `Math.round`: rounds half toward positive infinity. -/
def jsRound (x : ℚ) : ℤ := ⌊x + 1/2⌋

/-- JavaScript `Math.min(o || Infinity, q)`: a falsy bound (absent or
zero) is replaced by `Infinity`, which is neutral for `min`. -/
def jsMinInf (o : Option ℚ) (q : ℚ) : ℚ :=
  match o with
  | some v => if v = 0 then q else min v q
  | none => q

/-- JavaScript `l.slice(0, e)` for an integer `e`: a negative end index
counts from the end of the list (`max(length + e, 0)`), a nonnegative
one is clamped to the length. -/
def jsSliceTo (l : List α) (e : ℤ) : List α :=
  if e < 0 then l.take ((l.length + e).toNat) else l.take e.toNat

/-- Static per-symbol quantity precision table of
`FuturesCapitalManager.roundQuantity` (number of decimal places). -/
def quantityPrecisionMap (s : String) : Option ℕ :=
  if s = "BTCUSDT" then some 3
  else if s = "ETHUSDT" then some 3
  else if s = "BNBUSDT" then some 2
  else if s = "XRPUSDT" then some 1
  else if s = "ADAUSDT" then some 0
  else if s = "DOGEUSDT" then some 0
  else if s = "SOLUSDT" then some 2
  else if s = "AVAXUSDT" then some 2
  else if s = "MATICUSDT" then some 1
  else if s = "DOTUSDT" then some 2
  else if s = "LINKUSDT" then some 2
  else if s = "UNIUSDT" then some 2
  else none

/-- JavaScript `quantityPrecisionMap[binanceSymbol] || 3`: an absent
entry, and equally a `0` entry (falsy), yields the default 3. -/
def effectivePrecision (s : String) : ℕ :=
  match quantityPrecisionMap s with
  | some v => if v = 0 then 3 else v
  | none => 3

/-- `FuturesCapitalManager.roundQuantity`: append `USDT` when missing,
look up the precision, scale, `Math.round`, unscale. -/
def roundQuantity (quantity : ℚ) (symbol : String) : ℚ :=
  let binanceSymbol := if symbol.endsWith "USDT" then symbol else symbol ++ "USDT"
  let precision := effectivePrecision binanceSymbol
  let factor : ℚ := 10 ^ precision
  (jsRound (quantity * factor) : ℚ) / factor

/-- Lines 31 to 39 of `allocateMargin`: resolve the budget.
`totalMargin || defaultTotalMargin`, then clamp to `availableBalance`
only when the balance is truthy and smaller.  `defaultTotalMargin` is
the mutable instance field (initially 10), passed explicitly. -/
def resolveTotalMargin (defaultTotalMargin : ℚ)
    (totalMargin availableBalance : Option ℚ) : ℚ :=
  let totalMarginToUse := jsOrQ totalMargin defaultTotalMargin
  match availableBalance with
  | some ab => if ab ≠ 0 ∧ ab < totalMarginToUse then ab else totalMarginToUse
  | none => totalMarginToUse

/-- `FuturesCapitalManager.allocateMargin` (proportional mode). -/
def allocateMargin (defaultTotalMargin : ℚ) (positions : List Position)
    (totalMargin availableBalance : Option ℚ) : CapitalAllocationResult :=
  let totalMarginToUse := resolveTotalMargin defaultTotalMargin totalMargin availableBalance
  let validPositions := positions.filter (fun p => decide (0 < p.margin))
  if validPositions.isEmpty then
    { totalOriginalMargin := 0, totalAllocatedMargin := 0
      totalNotionalValue := 0, allocations := [] }
  else
    let totalOriginalMargin := (validPositions.map Position.margin).sum
    let allocations := validPositions.map (fun position =>
      let allocationRatio := position.margin / totalOriginalMargin
      let allocatedMargin := totalMarginToUse * allocationRatio
      let notionalValue := allocatedMargin * position.leverage
      let adjustedQuantity := notionalValue / position.current_price
      let side := if 0 < position.quantity then Side.BUY else Side.SELL
      { symbol := position.symbol
        originalMargin := position.margin
        allocatedMargin := ⌊allocatedMargin⌋
        notionalValue := ⌊notionalValue⌋
        adjustedQuantity := roundQuantity adjustedQuantity position.symbol
        allocationRatio := allocationRatio
        leverage := position.leverage
        side := side })
    { totalOriginalMargin := totalOriginalMargin
      totalAllocatedMargin := (allocations.map CapitalAllocation.allocatedMargin).sum
      totalNotionalValue := (allocations.map CapitalAllocation.notionalValue).sum
      allocations := allocations }

/-- `FuturesCapitalManager.allocateFixedMargin` (fixed-amount mode). -/
def allocateFixedMargin (positions : List Position) (fixedAmountPerCoin : ℚ)
    (maxTotalMargin availableBalance : Option ℚ) : CapitalAllocationResult :=
  let validPositions := positions.filter (fun p => decide (0 < p.margin))
  if validPositions.isEmpty || decide (fixedAmountPerCoin ≤ 0) then
    { totalOriginalMargin := 0, totalAllocatedMargin := 0
      totalNotionalValue := 0, allocations := [] }
  else
    let actualTotalMargin :=
      jsMinInf maxTotalMargin
        (jsMinInf availableBalance (fixedAmountPerCoin * validPositions.length))
    let maxCoins : ℤ := ⌊actualTotalMargin / fixedAmountPerCoin⌋
    let positionsToAllocate := jsSliceTo validPositions maxCoins
    if positionsToAllocate.isEmpty then
      { totalOriginalMargin := (validPositions.map Position.margin).sum
        totalAllocatedMargin := 0, totalNotionalValue := 0, allocations := [] }
    else
      let totalOriginalMargin := (positionsToAllocate.map Position.margin).sum
      let allocations := positionsToAllocate.map (fun position =>
        let allocatedMargin := fixedAmountPerCoin
        let notionalValue := allocatedMargin * position.leverage
        let adjustedQuantity := notionalValue / position.current_price
        let side := if 0 < position.quantity then Side.BUY else Side.SELL
        { symbol := position.symbol
          originalMargin := position.margin
          allocatedMargin := ⌊allocatedMargin⌋
          notionalValue := ⌊notionalValue⌋
          adjustedQuantity := roundQuantity adjustedQuantity position.symbol
          allocationRatio := allocatedMargin / (fixedAmountPerCoin * positionsToAllocate.length)
          leverage := position.leverage
          side := side })
      { totalOriginalMargin := totalOriginalMargin
        totalAllocatedMargin := (allocations.map CapitalAllocation.allocatedMargin).sum
        totalNotionalValue := (allocations.map CapitalAllocation.notionalValue).sum
        allocations := allocations }

/-- Error cases of `validateAllocationOptions`, standing for the three
error message strings of the source. -/
inductive AllocError where
  | conflict : AllocError
  | fixedNonPositive : AllocError
  | totalNonPositive : AllocError
deriving DecidableEq, Repr

/-- Return type of `validateAllocationOptions`. -/
structure ValidationResult where
  isValid : Bool
  error : Option AllocError
deriving DecidableEq, Repr

/-- JavaScript `o !== undefined && o <= 0`. -/
def suppliedNonpos (o : Option ℚ) : Bool :=
  match o with
  | some v => decide (v ≤ 0)
  | none => false

/-- `FuturesCapitalManager.validateAllocationOptions`: the conflict
check uses truthiness (`totalMargin && fixedAmountPerCoin`), the sign
checks use explicit `!== undefined` tests, in source order. -/
def validateAllocationOptions (totalMargin fixedAmountPerCoin : Option ℚ) :
    ValidationResult :=
  if truthyQ totalMargin && truthyQ fixedAmountPerCoin then
    { isValid := false, error := some AllocError.conflict }
  else if suppliedNonpos fixedAmountPerCoin then
    { isValid := false, error := some AllocError.fixedNonPositive }
  else if suppliedNonpos totalMargin then
    { isValid := false, error := some AllocError.totalNonPositive }
  else
    { isValid := true, error := none }

/-! ## Risk manager (`RiskManager`, `src/unnamed/part_001`) -/

/-- `PriceToleranceCheck` of the source, without the display-only
`reason` string. -/
structure PriceToleranceCheck where
  entryPrice : ℚ
  currentPrice : ℚ
  priceDifference : ℚ
  directionalPriceDifference : ℚ
  tolerance : ℚ
  withinTolerance : Bool
  shouldExecute : Bool
  favorableForExecution : Bool
  side : Option Side
deriving DecidableEq, Repr

/-- The fields of `TradingPlan` (from `../types/trading`, outside the
provided sources) that `RiskManager` reads: `quantity` and `leverage`. -/
structure TradingPlan where
  quantity : ℚ
  leverage : ℚ
deriving DecidableEq, Repr

/-- `RiskAssessment` of the source; warnings are kept as their literal
message strings. -/
structure RiskAssessment where
  isValid : Bool
  riskScore : ℚ
  warnings : List String
  maxLoss : ℚ
  suggestedPositionSize : ℚ
  priceTolerance : Option PriceToleranceCheck
deriving DecidableEq, Repr

/-- `RiskManager.calculateDirectionalPriceDifference`: throws on
`entryPrice <= 0`, otherwise the signed percentage difference. -/
def calculateDirectionalPriceDifference (entryPrice currentPrice : ℚ) :
    Except String ℚ :=
  if entryPrice ≤ 0 then Except.error "Entry price must be greater than 0"
  else Except.ok ((currentPrice - entryPrice) / entryPrice * 100)

/-- `RiskManager.calculatePriceDifference`: absolute value of the
directional difference. -/
def calculatePriceDifference (entryPrice currentPrice : ℚ) : Except String ℚ :=
  (calculateDirectionalPriceDifference entryPrice currentPrice).map abs

/-- The `if (side) ...` block of `checkPriceTolerance`: a favorable
move is a drop (or no move) for BUY and a rise (or no move) for SELL;
without a side it stays `false`. -/
def favorableFor (side : Option Side) (directionalPriceDifference : ℚ) : Bool :=
  match side with
  | some Side.BUY => decide (directionalPriceDifference ≤ 0)
  | some Side.SELL => decide (0 ≤ directionalPriceDifference)
  | none => false

/-- `RiskManager.checkPriceTolerance`.  The `tolerance` argument is the
resolved threshold `customTolerance || configManager.getPriceTolerance(symbol)`
(the config manager is outside the provided sources; the claims
quantify over the resolved tolerance directly). -/
def checkPriceTolerance (entryPrice currentPrice : ℚ) (side : Option Side)
    (tolerance : ℚ) : Except String PriceToleranceCheck := do
  let priceDifference ← calculatePriceDifference entryPrice currentPrice
  let directionalPriceDifference ←
    calculateDirectionalPriceDifference entryPrice currentPrice
  let withinTolerance := decide (priceDifference ≤ tolerance)
  let favorableForExecution := favorableFor side directionalPriceDifference
  let shouldExecute := withinTolerance || favorableForExecution
  Except.ok
    { entryPrice := entryPrice
      currentPrice := currentPrice
      priceDifference := priceDifference
      directionalPriceDifference := directionalPriceDifference
      tolerance := tolerance
      withinTolerance := withinTolerance
      shouldExecute := shouldExecute
      favorableForExecution := favorableForExecution
      side := side }

/-- `RiskManager.calculateRiskScore`: `min(20 + leverage * 10, 100)`. -/
def calculateRiskScore (tradingPlan : TradingPlan) : ℚ :=
  min (20 + tradingPlan.leverage * 10) 100

/-- `RiskManager.generateWarnings`. -/
def generateWarnings (tradingPlan : TradingPlan) (riskScore : ℚ) : List String :=
  (if 20 < tradingPlan.leverage then ["High leverage detected"] else []) ++
    (if 80 < riskScore then ["High risk score"] else [])

/-- `RiskManager.assessRisk`. -/
def assessRisk (tradingPlan : TradingPlan) : RiskAssessment :=
  let riskScore := calculateRiskScore tradingPlan
  { isValid := decide (riskScore ≤ 100)
    riskScore := riskScore
    warnings := generateWarnings tradingPlan riskScore
    maxLoss := tradingPlan.quantity * 1000
    suggestedPositionSize := tradingPlan.quantity
    priceTolerance := none }

/-- `RiskManager.assessRiskWithDirectionalPriceTolerance`; the pushed
warning keeps only its fixed part, the interpolated `reason` text
being display-only. -/
def assessRiskWithDirectionalPriceTolerance (tradingPlan : TradingPlan)
    (entryPrice currentPrice : ℚ) (side : Side) (tolerance : ℚ) :
    Except String RiskAssessment := do
  let basicAssessment := assessRisk tradingPlan
  let priceTolerance ← checkPriceTolerance entryPrice currentPrice (some side) tolerance
  let combinedWarnings := basicAssessment.warnings ++
    (if priceTolerance.shouldExecute then [] else ["Price tolerance check failed"])
  Except.ok
    { basicAssessment with
      warnings := combinedWarnings
      priceTolerance := some priceTolerance
      isValid := basicAssessment.isValid && priceTolerance.shouldExecute }

/-! ## Helper lemmas -/

/-- The filtered positions all have positive margin, so their margin sum
is positive when the filtered list is nonempty. -/
lemma margin_sum_pos (l : List Position) (hpos : ∀ p ∈ l, 0 < p.margin)
    (hne : l ≠ []) : 0 < (l.map Position.margin).sum := by
  apply List.sum_pos
  · intro x hx
    obtain ⟨p, hp, rfl⟩ := List.mem_map.1 hx
    exact hpos p hp
  · simpa using hne

/-- Distributing a budget `T` proportionally to positive shares and
flooring each part never exceeds `T`. -/
lemma sum_floor_proportional_le (l : List Position) (T : ℚ)
    (hpos : ∀ p ∈ l, 0 < p.margin) (hne : l ≠ []) :
    (((l.map (fun p => ⌊T * (p.margin / (l.map Position.margin).sum)⌋)).sum : ℤ) : ℚ) ≤ T := by
  set M := (l.map Position.margin).sum with hMdef
  have hM : 0 < M := margin_sum_pos l hpos hne
  have hcast :
      (((l.map (fun p => ⌊T * (p.margin / M)⌋)).sum : ℤ) : ℚ)
        = (l.map (fun p => ((⌊T * (p.margin / M)⌋ : ℤ) : ℚ))).sum := by
    rw [Int.cast_list_sum, List.map_map]
    rfl
  rw [hcast]
  have hle :
      (l.map (fun p => ((⌊T * (p.margin / M)⌋ : ℤ) : ℚ))).sum
        ≤ (l.map (fun p => T * (p.margin / M))).sum :=
    List.sum_le_sum (fun p _ => Int.floor_le _)
  refine hle.trans ?_
  have hfun : (fun p : Position => T * (p.margin / M))
      = fun p : Position => (T / M) * p.margin := by
    funext p
    ring
  rw [hfun, List.sum_map_mul_left, ← hMdef, div_mul_cancel₀ T hM.ne']

/-- The resolved budget never exceeds a nonzero supplied `totalMargin`. -/
lemma resolveTotalMargin_le (defaultTotalMargin tm : ℚ) (ab : Option ℚ)
    (htm : tm ≠ 0) : resolveTotalMargin defaultTotalMargin (some tm) ab ≤ tm := by
  unfold resolveTotalMargin jsOrQ
  cases ab with
  | none => simp [htm]
  | some b =>
    simp only [htm, if_false]
    split
    · next hsplit => exact le_of_lt hsplit.2
    · exact le_refl tm

/-- The total allocated margin of the proportional allocator is bounded
by the resolved budget (or by `0` when nothing is allocated). -/
lemma totalAllocated_le_max (defaultTotalMargin : ℚ) (positions : List Position)
    (tm ab : Option ℚ) :
    (((allocateMargin defaultTotalMargin positions tm ab).totalAllocatedMargin : ℤ) : ℚ)
      ≤ max 0 (resolveTotalMargin defaultTotalMargin tm ab) := by
  by_cases hemp : (positions.filter (fun p => decide (0 < p.margin))).isEmpty = true
  · simp [allocateMargin, hemp]
  · have hvalid : ∀ p ∈ positions.filter (fun p => decide (0 < p.margin)), 0 < p.margin := by
      intro p hp
      have := (List.mem_filter.1 hp).2
      simpa using this
    have hnil : positions.filter (fun p => decide (0 < p.margin)) ≠ [] := by
      intro hcontra
      exact hemp (by simp [hcontra])
    have hmain := sum_floor_proportional_le
      (positions.filter (fun p => decide (0 < p.margin)))
      (resolveTotalMargin defaultTotalMargin tm ab) hvalid hnil
    refine le_of_eq_of_le ?_ (hmain.trans (le_max_right 0 _))
    simp [allocateMargin, hemp, List.map_map]
    rfl

/-- The stored total equals the sum of the per-allocation margins. -/
lemma allocateMargin_totalAllocated_eq (defaultTotalMargin : ℚ)
    (positions : List Position) (tm ab : Option ℚ) :
    (allocateMargin defaultTotalMargin positions tm ab).totalAllocatedMargin
      = ((allocateMargin defaultTotalMargin positions tm ab).allocations.map
          CapitalAllocation.allocatedMargin).sum := by
  by_cases hemp : (positions.filter (fun p => decide (0 < p.margin))).isEmpty = true
  · simp [allocateMargin, hemp]
  · simp [allocateMargin, hemp]

/-! ## Claim theorems -/

/-- C1: for every position list and supplied `totalMargin > 0`
(`availableBalance` supplied or not), the sum of the floored
`allocatedMargin` fields over all allocations returned by
`allocateMargin` never exceeds `totalMargin`. -/
theorem allocateMargin_total_within_budget (defaultTotalMargin : ℚ)
    (positions : List Position) (tm : ℚ) (ab : Option ℚ) (htm : 0 < tm) :
    ((((allocateMargin defaultTotalMargin positions (some tm) ab).allocations.map
        CapitalAllocation.allocatedMargin).sum : ℤ) : ℚ) ≤ tm := by
  rw [← allocateMargin_totalAllocated_eq]
  refine (totalAllocated_le_max defaultTotalMargin positions (some tm) ab).trans ?_
  exact max_le htm.le (resolveTotalMargin_le defaultTotalMargin tm ab htm.ne')

/-- C1 witness: three positions, budget 1000, no balance cap. -/
theorem allocateMargin_total_within_budget_witness :
    (0 : ℚ) < 1000 ∧
    ((((allocateMargin 10
        [⟨"BTCUSDT", 5/100, 20, 24866/100, 1090895/10⟩,
         ⟨"ETHUSDT", 14/10, 20, 2058/10, 384525/100⟩,
         ⟨"XRPUSDT", -1504, 20, 20116/100, 238415/100000⟩]
        (some 1000) none).allocations.map
          CapitalAllocation.allocatedMargin).sum : ℤ) : ℚ) ≤ 1000 :=
  ⟨by norm_num,
   allocateMargin_total_within_budget 10
     [⟨"BTCUSDT", 5/100, 20, 24866/100, 1090895/10⟩,
      ⟨"ETHUSDT", 14/10, 20, 2058/10, 384525/100⟩,
      ⟨"XRPUSDT", -1504, 20, 20116/100, 238415/100000⟩]
     1000 none (by norm_num)⟩

/-- C7 counterexample: `availableBalance = 0` is falsy in the source
(`if (availableBalance && ...)`), so a zero balance does NOT clamp the
budget: the full `totalMargin = 10` is still distributed. -/
theorem allocateMargin_zero_balance_not_clamped :
    resolveTotalMargin 10 (some 10) (some 0) = 10 ∧
    (allocateMargin 10 [⟨"BTCUSDT", 1, 1, 1, 1⟩] (some 10) (some 0)).totalAllocatedMargin
      = 10 := by
  with_unfolding_all decide

/-- A supplied balance of `0` is falsy, so it resolves the budget
exactly like an absent balance. -/
lemma resolveTotalMargin_zero_balance (defaultTotalMargin : ℚ) (tm : Option ℚ) :
    resolveTotalMargin defaultTotalMargin tm (some 0)
      = resolveTotalMargin defaultTotalMargin tm none := by
  unfold resolveTotalMargin
  simp

/-- `allocateMargin` with a supplied `availableBalance = 0` returns
exactly the result of `allocateMargin` with no balance at all. -/
lemma allocateMargin_zero_balance (defaultTotalMargin : ℚ)
    (positions : List Position) (tm : Option ℚ) :
    allocateMargin defaultTotalMargin positions tm (some 0)
      = allocateMargin defaultTotalMargin positions tm none := by
  unfold allocateMargin
  rw [resolveTotalMargin_zero_balance]

/-- When at least one valid position is funded, the distributed total is
bounded by the resolved budget itself, also when that budget is
negative. -/
lemma totalAllocated_le_resolved (defaultTotalMargin : ℚ)
    (positions : List Position) (tm ab : Option ℚ)
    (hnil : positions.filter (fun p => decide (0 < p.margin)) ≠ []) :
    (((allocateMargin defaultTotalMargin positions tm ab).totalAllocatedMargin : ℤ) : ℚ)
      ≤ resolveTotalMargin defaultTotalMargin tm ab := by
  have hemp : ¬((positions.filter (fun p => decide (0 < p.margin))).isEmpty = true) := by
    simpa [List.isEmpty_iff] using hnil
  have hvalid : ∀ p ∈ positions.filter (fun p => decide (0 < p.margin)), 0 < p.margin := by
    intro p hp
    simpa using (List.mem_filter.1 hp).2
  have hmain := sum_floor_proportional_le
    (positions.filter (fun p => decide (0 < p.margin)))
    (resolveTotalMargin defaultTotalMargin tm ab) hvalid hnil
  refine le_of_eq_of_le ?_ hmain
  simp [allocateMargin, hemp, List.map_map]
  rfl

/-- C7 amended: when `availableBalance` is supplied, nonzero (truthy —
positive or negative) and smaller than the supplied positive
`totalMargin`, the budget is clamped to `availableBalance`: the
resolved budget equals `availableBalance`, the distributed total is at
most `max 0 availableBalance` in general (an empty allocation
distributes 0), and at most `availableBalance` itself whenever at
least one valid position is funded.  A supplied balance of `0` is
falsy and treated as absent: the result is identical to calling
`allocateMargin` without a balance, so the full `totalMargin` is
distributed. -/
theorem allocateMargin_clamps_to_truthy_balance (defaultTotalMargin : ℚ)
    (positions : List Position) (tm ab : ℚ)
    (htm : 0 < tm) (hab : ab ≠ 0) (h : ab < tm) :
    resolveTotalMargin defaultTotalMargin (some tm) (some ab) = ab ∧
    ((((allocateMargin defaultTotalMargin positions (some tm) (some ab)).allocations.map
        CapitalAllocation.allocatedMargin).sum : ℤ) : ℚ) ≤ max 0 ab ∧
    (positions.filter (fun p => decide (0 < p.margin)) ≠ [] →
      ((((allocateMargin defaultTotalMargin positions (some tm) (some ab)).allocations.map
          CapitalAllocation.allocatedMargin).sum : ℤ) : ℚ) ≤ ab) ∧
    allocateMargin defaultTotalMargin positions (some tm) (some 0)
      = allocateMargin defaultTotalMargin positions (some tm) none := by
  have hres : resolveTotalMargin defaultTotalMargin (some tm) (some ab) = ab := by
    unfold resolveTotalMargin jsOrQ
    simp only [htm.ne', if_false]
    rw [if_pos ⟨hab, h⟩]
  refine ⟨hres, ?_, ?_, allocateMargin_zero_balance defaultTotalMargin positions (some tm)⟩
  · rw [← allocateMargin_totalAllocated_eq]
    refine (totalAllocated_le_max defaultTotalMargin positions (some tm) (some ab)).trans ?_
    rw [hres]
  · intro hnil
    rw [← allocateMargin_totalAllocated_eq]
    have hle := totalAllocated_le_resolved defaultTotalMargin positions (some tm) (some ab) hnil
    rwa [hres] at hle

/-- C7 amended witness: budget 10 clamped to the truthy balance 4, and
a balance of 0 reproducing the no-balance result. -/
theorem allocateMargin_clamps_to_truthy_balance_witness :
    resolveTotalMargin 10 (some 10) (some 4) = 4 ∧
    ((((allocateMargin 10 [⟨"BTCUSDT", 1, 1, 1, 1⟩] (some 10) (some 4)).allocations.map
        CapitalAllocation.allocatedMargin).sum : ℤ) : ℚ) ≤ max 0 4 ∧
    ((((allocateMargin 10 [⟨"BTCUSDT", 1, 1, 1, 1⟩] (some 10) (some 4)).allocations.map
        CapitalAllocation.allocatedMargin).sum : ℤ) : ℚ) ≤ 4 ∧
    allocateMargin 10 [⟨"BTCUSDT", 1, 1, 1, 1⟩] (some 10) (some 0)
      = allocateMargin 10 [⟨"BTCUSDT", 1, 1, 1, 1⟩] (some 10) none := by
  have h := allocateMargin_clamps_to_truthy_balance 10 [⟨"BTCUSDT", 1, 1, 1, 1⟩] 10 4
    (by norm_num) (by norm_num) (by norm_num)
  exact ⟨h.1, h.2.1, h.2.2.1 (by decide), h.2.2.2⟩

/-- C2 counterexample: the returned `notionalValue` is the floor of the
UNFLOORED allocated margin times leverage, not of the already-floored
`allocatedMargin` times leverage.  With margins 1 and 2 and budget 10,
the first position gets `allocatedMargin = ⌊10/3⌋ = 3` but
`notionalValue = ⌊(10/3) * 3⌋ = 10`, where the claim predicts
`⌊3 * 3⌋ = 9`. -/
theorem allocateMargin_notional_not_from_floored_margin :
    (allocateMargin 10 [⟨"A", 1, 3, 1, 1⟩, ⟨"B", 1, 1, 2, 1⟩] (some 10) none).allocations.map
        (fun a => a.notionalValue)
      ≠ (allocateMargin 10 [⟨"A", 1, 3, 1, 1⟩, ⟨"B", 1, 1, 2, 1⟩] (some 10) none).allocations.map
        (fun a => ⌊(a.allocatedMargin : ℚ) * a.leverage⌋) := by
  with_unfolding_all decide

/-- C2 amended: for every position with positive margin, in input order,
`allocateMargin` returns `allocationRatio = margin / Σmargin`,
`allocatedMargin = ⌊T * ratio⌋`, `notionalValue = ⌊(T * ratio) * leverage⌋`
and `adjustedQuantity = roundQuantity ((T * ratio) * leverage / current_price)`,
where `T` is the resolved budget and the notional and quantity are
computed from the pre-floor allocated margin. -/
theorem allocateMargin_per_position_formulas (defaultTotalMargin : ℚ)
    (positions : List Position) (tm ab : Option ℚ) :
    (allocateMargin defaultTotalMargin positions tm ab).allocations =
      (let valid := positions.filter (fun p => decide (0 < p.margin));
       let M := (valid.map Position.margin).sum;
       let T := resolveTotalMargin defaultTotalMargin tm ab;
       valid.map (fun p =>
        { symbol := p.symbol
          originalMargin := p.margin
          allocatedMargin := ⌊T * (p.margin / M)⌋
          notionalValue := ⌊T * (p.margin / M) * p.leverage⌋
          adjustedQuantity := roundQuantity (T * (p.margin / M) * p.leverage / p.current_price) p.symbol
          allocationRatio := p.margin / M
          leverage := p.leverage
          side := if 0 < p.quantity then Side.BUY else Side.SELL })) := by
  by_cases hemp : (positions.filter (fun p => decide (0 < p.margin))).isEmpty = true
  · have hnil : positions.filter (fun p => decide (0 < p.margin)) = [] := by
      simpa using hemp
    simp [allocateMargin, hemp, hnil]
  · simp [allocateMargin, hemp]

/-- C3: the precision table maps ADAUSDT and DOGEUSDT to 0 decimals, but
the lookup `quantityPrecisionMap[symbol] || 3` treats the entry 0 as
absent (JavaScript falsy), so these symbols are rounded to 3 decimals
instead: `roundQuantity 1.4 "ADAUSDT" = 1.4`, where a 0-decimal rounding
would give `1`. -/
theorem roundQuantity_zero_precision_entry_ignored :
    quantityPrecisionMap "ADAUSDT" = some 0 ∧
    quantityPrecisionMap "DOGEUSDT" = some 0 ∧
    effectivePrecision "ADAUSDT" = 3 ∧
    roundQuantity (7/5) "ADAUSDT" = 7/5 ∧
    roundQuantity (7/5) "DOGEUSDT" = 7/5 ∧
    ((jsRound ((7/5) * 10 ^ (0 : ℕ)) : ℤ) : ℚ) / 10 ^ (0 : ℕ) = 1 := by
  with_unfolding_all decide

/-- A falsy-or-`Infinity` minimum stays positive when the cap is
positive and any supplied bound is nonnegative. -/
lemma jsMinInf_pos (o : Option ℚ) (q : ℚ) (hq : 0 < q)
    (ho : ∀ v, o = some v → 0 ≤ v) : 0 < jsMinInf o q := by
  cases o with
  | none => exact hq
  | some v =>
    have h0 : 0 ≤ v := ho v rfl
    by_cases hv : v = 0
    · simpa [jsMinInf, hv] using hq
    · have hvpos : 0 < v := lt_of_le_of_ne h0 (Ne.symm hv)
      simpa [jsMinInf, hv] using lt_min hvpos hq

/-- A JavaScript slice from index 0 only keeps elements of the list. -/
lemma jsSliceTo_subset (l : List α) (e : ℤ) : jsSliceTo l e ⊆ l := by
  unfold jsSliceTo
  split
  · exact List.take_subset _ _
  · exact List.take_subset _ _

/-- C6 counterexample: (a) a supplied `availableBalance = 0` is falsy
(`availableBalance || Infinity`), so it is treated as no bound at all
and the position is still funded, where the claim predicts an empty
allocation (`usableBudget = 0`); (b) a funded position receives
`⌊fixedAmountPerCoin⌋`, not `fixedAmountPerCoin` exactly: with
`fixedAmountPerCoin = 100.5` it receives 100. -/
theorem allocateFixedMargin_budget_counterexample :
    ((allocateFixedMargin [⟨"BTCUSDT", 1, 1, 1, 1⟩] 100 none (some 0)).allocations.map
        (fun a => (a.symbol, a.allocatedMargin)) = [("BTCUSDT", 100)]) ∧
    ((allocateFixedMargin [⟨"BTCUSDT", 1, 1, 1, 1⟩] (201/2) none none).allocations.map
        (fun a => a.allocatedMargin) = [100]) := by
  with_unfolding_all decide

/-- C6 amended: with `fixedAmountPerCoin > 0` and every supplied bound
nonnegative, `allocateFixedMargin` funds exactly the first
`maxSymbols = ⌊usableBudget / fixedAmountPerCoin⌋` valid positions in
their input order, where `usableBudget` is the minimum of the truthy
bounds (a bound that is absent OR zero is treated as infinity) and
`fixedAmountPerCoin * validCount`; every funded position receives
`⌊fixedAmountPerCoin⌋` and later positions are absent from the result
(an empty list when `maxSymbols = 0`). -/
theorem allocateFixedMargin_funds_first_maxSymbols (positions : List Position)
    (fixedAmountPerCoin : ℚ) (maxTotalMargin availableBalance : Option ℚ)
    (hf : 0 < fixedAmountPerCoin)
    (hmax : ∀ v, maxTotalMargin = some v → 0 ≤ v)
    (hbal : ∀ v, availableBalance = some v → 0 ≤ v) :
    (allocateFixedMargin positions fixedAmountPerCoin maxTotalMargin
        availableBalance).allocations.map (fun a => (a.symbol, a.allocatedMargin))
      = (let valid := positions.filter (fun p => decide (0 < p.margin));
         let usableBudget := jsMinInf maxTotalMargin
           (jsMinInf availableBalance (fixedAmountPerCoin * valid.length));
         let maxSymbols := (⌊usableBudget / fixedAmountPerCoin⌋).toNat;
         (valid.take maxSymbols).map (fun p => (p.symbol, ⌊fixedAmountPerCoin⌋))) := by
  by_cases hemp : (positions.filter (fun p => decide (0 < p.margin))).isEmpty = true
  · have hnil : positions.filter (fun p => decide (0 < p.margin)) = [] := by
      simpa using hemp
    simp [allocateFixedMargin, hemp, hnil]
  · have hnil : positions.filter (fun p => decide (0 < p.margin)) ≠ [] := by
      intro hcontra
      exact hemp (by simp [hcontra])
    have hlen : 0 < ((positions.filter (fun p => decide (0 < p.margin))).length : ℚ) := by
      have := List.length_pos.2 hnil
      exact_mod_cast this
    have hcap : 0 < fixedAmountPerCoin *
        ((positions.filter (fun p => decide (0 < p.margin))).length : ℚ) :=
      mul_pos hf hlen
    have husable : 0 < jsMinInf maxTotalMargin (jsMinInf availableBalance
        (fixedAmountPerCoin *
          ((positions.filter (fun p => decide (0 < p.margin))).length : ℚ))) :=
      jsMinInf_pos _ _ (jsMinInf_pos _ _ hcap hbal) hmax
    have hfloor : 0 ≤ ⌊jsMinInf maxTotalMargin (jsMinInf availableBalance
        (fixedAmountPerCoin *
          ((positions.filter (fun p => decide (0 < p.margin))).length : ℚ)))
        / fixedAmountPerCoin⌋ :=
      Int.floor_nonneg.2 (div_pos husable hf).le
    have hslice : jsSliceTo (positions.filter (fun p => decide (0 < p.margin)))
        (⌊jsMinInf maxTotalMargin (jsMinInf availableBalance
          (fixedAmountPerCoin *
            ((positions.filter (fun p => decide (0 < p.margin))).length : ℚ)))
          / fixedAmountPerCoin⌋)
        = (positions.filter (fun p => decide (0 < p.margin))).take
            ((⌊jsMinInf maxTotalMargin (jsMinInf availableBalance
              (fixedAmountPerCoin *
                ((positions.filter (fun p => decide (0 < p.margin))).length : ℚ)))
              / fixedAmountPerCoin⌋).toNat) := by
      unfold jsSliceTo
      rw [if_neg (not_lt.2 hfloor)]
    simp only [allocateFixedMargin, hemp, hf.not_le, decide_eq_true_eq,
      Bool.false_eq_true, decide_eq_false_iff_not, not_le, Bool.false_or,
      if_false, hslice]
    by_cases htake : ((positions.filter (fun p => decide (0 < p.margin))).take
        ((⌊jsMinInf maxTotalMargin (jsMinInf availableBalance
          (fixedAmountPerCoin *
            ((positions.filter (fun p => decide (0 < p.margin))).length : ℚ)))
          / fixedAmountPerCoin⌋).toNat)).isEmpty = true
    · have htnil := List.isEmpty_iff.1 htake
      simp [htake, htnil]
    · simp [htake, List.map_map]
      rfl

/-- C6 witness: three positions, 100 per coin, cap 250: exactly the
first two are funded at 100 each. -/
theorem allocateFixedMargin_funds_first_maxSymbols_witness :
    (allocateFixedMargin
        [⟨"BTCUSDT", 1, 1, 1, 1⟩, ⟨"ETHUSDT", 1, 1, 1, 1⟩, ⟨"XRPUSDT", -1, 1, 1, 1⟩]
        100 (some 250) none).allocations.map (fun a => (a.symbol, a.allocatedMargin))
      = [("BTCUSDT", (100 : ℤ)), ("ETHUSDT", (100 : ℤ))] := by
  have h := allocateFixedMargin_funds_first_maxSymbols
    [⟨"BTCUSDT", 1, 1, 1, 1⟩, ⟨"ETHUSDT", 1, 1, 1, 1⟩, ⟨"XRPUSDT", -1, 1, 1, 1⟩]
    100 (some 250) none (by norm_num)
    (fun v hv => by cases hv; norm_num) (fun v hv => by cases hv)
  refine h.trans ?_
  with_unfolding_all decide

/-- C8 counterexample: a position with zero quantity (and positive
margin) is NOT excluded before allocation: it receives an allocation,
with side SELL (since `quantity > 0` is false). -/
theorem allocateMargin_zero_quantity_not_excluded :
    (allocateMargin 10 [⟨"BTCUSDT", 0, 1, 1, 1⟩] (some 10) none).allocations.map
        (fun a => (a.symbol, a.side))
      = [("BTCUSDT", Side.SELL)] := by
  with_unfolding_all decide

/-- C8 amended: in both allocators, every returned allocation comes from
an input position with strictly positive margin (zero or negative
margin positions are excluded), and its side is BUY exactly when that
position's quantity is positive and SELL otherwise — including for a
zero quantity, which is NOT excluded and yields SELL. -/
theorem allocations_side_from_quantity_sign (defaultTotalMargin : ℚ)
    (positions : List Position) (tm ab : Option ℚ)
    (fixedAmountPerCoin : ℚ) (maxTotalMargin availableBalance : Option ℚ) :
    (∀ a ∈ (allocateMargin defaultTotalMargin positions tm ab).allocations,
      ∃ p, p ∈ positions ∧ 0 < p.margin ∧ a.symbol = p.symbol ∧
        a.side = (if 0 < p.quantity then Side.BUY else Side.SELL)) ∧
    (∀ a ∈ (allocateFixedMargin positions fixedAmountPerCoin maxTotalMargin
        availableBalance).allocations,
      ∃ p, p ∈ positions ∧ 0 < p.margin ∧ a.symbol = p.symbol ∧
        a.side = (if 0 < p.quantity then Side.BUY else Side.SELL)) := by
  constructor
  · intro a ha
    rw [allocateMargin_per_position_formulas] at ha
    simp only [List.mem_map] at ha
    obtain ⟨p, hp, rfl⟩ := ha
    have hmem := List.mem_filter.1 hp
    exact ⟨p, hmem.1, by simpa using hmem.2, rfl, rfl⟩
  · intro a ha
    have hmem : a ∈ (allocateFixedMargin positions fixedAmountPerCoin maxTotalMargin
        availableBalance).allocations := ha
    unfold allocateFixedMargin at hmem
    by_cases hcond : ((positions.filter (fun p => decide (0 < p.margin))).isEmpty
        || decide (fixedAmountPerCoin ≤ 0)) = true
    · rw [if_pos hcond] at hmem
      simp at hmem
    · rw [if_neg hcond] at hmem
      by_cases hcond2 : (jsSliceTo (positions.filter (fun p => decide (0 < p.margin)))
          (⌊jsMinInf maxTotalMargin (jsMinInf availableBalance (fixedAmountPerCoin *
            ((positions.filter (fun p => decide (0 < p.margin))).length : ℚ)))
            / fixedAmountPerCoin⌋)).isEmpty = true
      · rw [if_pos hcond2] at hmem
        simp at hmem
      · rw [if_neg hcond2] at hmem
        simp only [List.mem_map] at hmem
        obtain ⟨p, hp, rfl⟩ := hmem
        have hsub := jsSliceTo_subset
          (positions.filter (fun p => decide (0 < p.margin))) _ hp
        have hfil := List.mem_filter.1 hsub
        exact ⟨p, hfil.1, by simpa using hfil.2, rfl, rfl⟩

/-- C8 witness: a BUY allocation produced from a positive-quantity,
positive-margin position. -/
theorem allocations_side_from_quantity_sign_witness :
    ∃ p, p ∈ [(⟨"BTCUSDT", 1, 2, 3, 4⟩ : Position)] ∧ 0 < p.margin ∧
      ("BTCUSDT" : String) = p.symbol ∧
      Side.BUY = (if 0 < p.quantity then Side.BUY else Side.SELL) :=
  (allocations_side_from_quantity_sign 10 [⟨"BTCUSDT", 1, 2, 3, 4⟩] (some 12) none
      100 none none).1
    ⟨"BTCUSDT", 3, 12, 24, 6, 1, 2, Side.BUY⟩ (by with_unfolding_all decide)

/-- C9 counterexample: supplying both policies with `totalMargin = 0` is
rejected, but by the `totalMargin must be greater than 0` check, not by
the conflict check (the conflict test uses truthiness, and `0` is
falsy). -/
theorem validateAllocationOptions_both_supplied_without_conflict_error :
    validateAllocationOptions (some 0) (some 100)
      = { isValid := false, error := some AllocError.totalNonPositive } ∧
    (validateAllocationOptions (some 0) (some 100)).error ≠ some AllocError.conflict := by
  with_unfolding_all decide

/-- C9 amended: every options object supplying both `totalMargin` and
`fixedAmountPerCoin` is rejected (isValid false) before any allocation
runs — with the conflict error when both values are nonzero (truthy),
and with the corresponding must-be-positive error when one of them is
zero; a supplied non-positive value is rejected, and supplying at most
one positive policy value is accepted. -/
theorem validateAllocationOptions_spec (tm f : ℚ) :
    ((validateAllocationOptions (some tm) (some f)).isValid = false) ∧
    (tm ≠ 0 → f ≠ 0 → validateAllocationOptions (some tm) (some f)
      = { isValid := false, error := some AllocError.conflict }) ∧
    (tm ≤ 0 → (validateAllocationOptions (some tm) none).isValid = false) ∧
    (f ≤ 0 → (validateAllocationOptions none (some f)).isValid = false) ∧
    (0 < tm → validateAllocationOptions (some tm) none
      = { isValid := true, error := none }) ∧
    (0 < f → validateAllocationOptions none (some f)
      = { isValid := true, error := none }) ∧
    validateAllocationOptions none none = { isValid := true, error := none } := by
  refine ⟨?_, ?_, ?_, ?_, ?_, ?_, ?_⟩
  · by_cases htm : tm = 0
    · by_cases hf : f = 0
      · simp [validateAllocationOptions, truthyQ, suppliedNonpos, htm, hf]
      · simp only [validateAllocationOptions, truthyQ, suppliedNonpos, htm, hf]
        norm_num
        split <;> rfl
    · by_cases hf : f = 0
      · simp [validateAllocationOptions, truthyQ, suppliedNonpos, htm, hf]
      · simp [validateAllocationOptions, truthyQ, suppliedNonpos, htm, hf]
  · intro htm hf
    simp [validateAllocationOptions, truthyQ, htm, hf]
  · intro h
    by_cases htm : tm = 0
    · simp [validateAllocationOptions, truthyQ, suppliedNonpos, htm]
    · simp [validateAllocationOptions, truthyQ, suppliedNonpos, htm, h]
  · intro h
    by_cases hf : f = 0
    · simp [validateAllocationOptions, truthyQ, suppliedNonpos, hf]
    · simp [validateAllocationOptions, truthyQ, suppliedNonpos, hf, h]
  · intro h
    simp [validateAllocationOptions, truthyQ, suppliedNonpos, h.ne', not_le.2 h]
  · intro h
    simp [validateAllocationOptions, truthyQ, suppliedNonpos, h.ne', not_le.2 h]
  · simp [validateAllocationOptions, truthyQ, suppliedNonpos]

/-- C9 witness: both positive policies rejected with the conflict error;
a single positive policy accepted. -/
theorem validateAllocationOptions_spec_witness :
    validateAllocationOptions (some 1000) (some 100)
      = { isValid := false, error := some AllocError.conflict } ∧
    validateAllocationOptions (some 1000) none
      = { isValid := true, error := none } :=
  ⟨(validateAllocationOptions_spec 1000 100).2.1 (by norm_num) (by norm_num),
   (validateAllocationOptions_spec 1000 100).2.2.2.2.1 (by norm_num)⟩

/-- Closed form of `checkPriceTolerance` for a valid entry price. -/
lemma checkPriceTolerance_ok (entry current : ℚ) (h : 0 < entry)
    (side : Option Side) (tolerance : ℚ) :
    checkPriceTolerance entry current side tolerance = Except.ok
      { entryPrice := entry
        currentPrice := current
        priceDifference := |(current - entry) / entry * 100|
        directionalPriceDifference := (current - entry) / entry * 100
        tolerance := tolerance
        withinTolerance := decide (|(current - entry) / entry * 100| ≤ tolerance)
        shouldExecute := decide (|(current - entry) / entry * 100| ≤ tolerance)
          || favorableFor side ((current - entry) / entry * 100)
        favorableForExecution := favorableFor side ((current - entry) / entry * 100)
        side := side } := by
  have hd : calculateDirectionalPriceDifference entry current
      = Except.ok ((current - entry) / entry * 100) := by
    unfold calculateDirectionalPriceDifference
    rw [if_neg (not_le.2 h)]
  unfold checkPriceTolerance calculatePriceDifference
  rw [hd]
  rfl

/-- C4 counterexample: with equal entry and current price but a negative
tolerance, `withinTolerance` is false (the claim asserts equal prices
are always within tolerance); execution still proceeds because the zero
move is favorable for the given side. -/
theorem checkPriceTolerance_equal_price_negative_tolerance :
    (checkPriceTolerance 100 100 (some Side.BUY) (-1)).toOption.map
        PriceToleranceCheck.withinTolerance = some false ∧
    (checkPriceTolerance 100 100 (some Side.BUY) (-1)).toOption.map
        PriceToleranceCheck.shouldExecute = some true := by
  with_unfolding_all decide

/-- C4 amended: for entry price > 0 and a given side,
`shouldExecute = withinTolerance || favorable` with
`withinTolerance = (|directional| <= tolerance)` and
`favorable = (BUY and directional <= 0) or (SELL and directional >= 0)`;
execution is blocked exactly when the move exceeds the tolerance and is
against the position; equal prices always yield `shouldExecute = true`
for a given side, and are within tolerance whenever the tolerance is
nonnegative (a negative tolerance makes `withinTolerance` false even
for equal prices). -/
theorem checkPriceTolerance_directional_spec (entry current tolerance : ℚ)
    (side : Side) (h : 0 < entry) :
    ∃ r : PriceToleranceCheck,
      checkPriceTolerance entry current (some side) tolerance = Except.ok r ∧
      r.directionalPriceDifference = (current - entry) / entry * 100 ∧
      r.withinTolerance = decide (|(current - entry) / entry * 100| ≤ tolerance) ∧
      r.favorableForExecution = favorableFor (some side) ((current - entry) / entry * 100) ∧
      r.shouldExecute = (r.withinTolerance || r.favorableForExecution) ∧
      (r.shouldExecute = false ↔
        (tolerance < |(current - entry) / entry * 100| ∧
          ((side = Side.BUY ∧ 0 < (current - entry) / entry * 100) ∨
           (side = Side.SELL ∧ (current - entry) / entry * 100 < 0)))) ∧
      (current = entry →
        r.shouldExecute = true ∧ (0 ≤ tolerance → r.withinTolerance = true)) := by
  refine ⟨_, checkPriceTolerance_ok entry current h (some side) tolerance,
    rfl, rfl, rfl, rfl, ?_, ?_⟩
  · cases side with
    | BUY =>
      simp only [Bool.or_eq_false_iff, decide_eq_false_iff_not, not_le, favorableFor]
      tauto
    | SELL =>
      simp only [Bool.or_eq_false_iff, decide_eq_false_iff_not, not_le, favorableFor]
      tauto
  · intro heq
    subst heq
    constructor
    · cases side <;> simp [favorableFor]
    · intro htol
      simp [abs_of_nonneg, htol]

/-- C4 witness: a 1 percent drop for a BUY with tolerance 0.5 percent is
outside tolerance but favorable, hence executed. -/
theorem checkPriceTolerance_directional_spec_witness :
    ∃ r : PriceToleranceCheck,
      checkPriceTolerance 100 99 (some Side.BUY) (1/2) = Except.ok r ∧
      r.directionalPriceDifference = ((99 : ℚ) - 100) / 100 * 100 ∧
      r.withinTolerance = decide (|((99 : ℚ) - 100) / 100 * 100| ≤ (1/2 : ℚ)) ∧
      r.favorableForExecution = favorableFor (some Side.BUY) (((99 : ℚ) - 100) / 100 * 100) ∧
      r.shouldExecute = (r.withinTolerance || r.favorableForExecution) ∧
      (r.shouldExecute = false ↔
        ((1/2 : ℚ) < |((99 : ℚ) - 100) / 100 * 100| ∧
          ((Side.BUY = Side.BUY ∧ (0 : ℚ) < ((99 : ℚ) - 100) / 100 * 100) ∨
           (Side.BUY = Side.SELL ∧ ((99 : ℚ) - 100) / 100 * 100 < 0)))) ∧
      ((99 : ℚ) = 100 →
        r.shouldExecute = true ∧ ((0 : ℚ) ≤ 1/2 → r.withinTolerance = true)) :=
  checkPriceTolerance_directional_spec 100 99 (1/2) Side.BUY (by norm_num)

/-- C5: `calculateDirectionalPriceDifference` fails with the
invalid-input error exactly when the entry price is nonpositive; for a
positive entry it returns `(current - entry) / entry * 100`, which is
zero exactly when the prices are equal, and `calculatePriceDifference`
returns its absolute value. -/
theorem calculateDirectionalPriceDifference_spec (entry current : ℚ) :
    (entry ≤ 0 →
      calculateDirectionalPriceDifference entry current
          = Except.error "Entry price must be greater than 0" ∧
      calculatePriceDifference entry current
          = Except.error "Entry price must be greater than 0") ∧
    (0 < entry →
      calculateDirectionalPriceDifference entry current
          = Except.ok ((current - entry) / entry * 100) ∧
      calculatePriceDifference entry current
          = Except.ok |(current - entry) / entry * 100| ∧
      ((current - entry) / entry * 100 = 0 ↔ current = entry)) := by
  constructor
  · intro h
    constructor
    · unfold calculateDirectionalPriceDifference
      rw [if_pos h]
    · unfold calculatePriceDifference calculateDirectionalPriceDifference
      rw [if_pos h]
      rfl
  · intro h
    have hne : entry ≠ 0 := h.ne'
    refine ⟨?_, ?_, ?_⟩
    · unfold calculateDirectionalPriceDifference
      rw [if_neg (not_le.2 h)]
    · unfold calculatePriceDifference calculateDirectionalPriceDifference
      rw [if_neg (not_le.2 h)]
      rfl
    · constructor
      · intro h0
        rcases mul_eq_zero.1 h0 with h1 | h1
        · rcases div_eq_zero_iff.1 h1 with h2 | h2
          · exact sub_eq_zero.1 h2
          · exact absurd h2 hne
        · norm_num at h1
      · intro h0
        subst h0
        simp

/-- C5 witness: a valid one percent rise, and the nonpositive-entry
failure. -/
theorem calculateDirectionalPriceDifference_spec_witness :
    calculateDirectionalPriceDifference 100 101 = Except.ok ((101 - 100) / 100 * 100) ∧
    calculateDirectionalPriceDifference 0 100
      = Except.error "Entry price must be greater than 0" :=
  ⟨((calculateDirectionalPriceDifference_spec 100 101).2 (by norm_num)).1,
   ((calculateDirectionalPriceDifference_spec 0 100).1 (by norm_num)).1⟩

/-- C10: the leverage-based risk score `min(20 + leverage * 10, 100)`
never exceeds the threshold 100, so `assessRisk` always returns
`isValid = true`; consequently the overall verdict of
`assessRiskWithDirectionalPriceTolerance` equals the price-tolerance
`shouldExecute` result alone. -/
theorem assessRisk_always_valid_and_verdict (tradingPlan : TradingPlan)
    (entry current tolerance : ℚ) (side : Side) (h : 0 < entry) :
    (assessRisk tradingPlan).isValid = true ∧
    calculateRiskScore tradingPlan ≤ 100 ∧
    (assessRiskWithDirectionalPriceTolerance tradingPlan entry current side tolerance).map
        RiskAssessment.isValid
      = (checkPriceTolerance entry current (some side) tolerance).map
        PriceToleranceCheck.shouldExecute := by
  have hscore : calculateRiskScore tradingPlan ≤ 100 := min_le_right _ _
  have hvalid : (assessRisk tradingPlan).isValid = true := by
    simp only [assessRisk, decide_eq_true_eq]
    exact hscore
  refine ⟨hvalid, hscore, ?_⟩
  unfold assessRiskWithDirectionalPriceTolerance
  rw [checkPriceTolerance_ok entry current h (some side) tolerance]
  simp only [Except.map, Bind.bind, Except.bind]
  rw [hvalid, Bool.true_and]

/-- C10 witness: leverage 50 (risk score capped at 100) with a blocked
unfavorable move: the verdict equals the tolerance result. -/
theorem assessRisk_always_valid_and_verdict_witness :
    (assessRisk ⟨1, 50⟩).isValid = true ∧
    calculateRiskScore ⟨1, 50⟩ ≤ 100 ∧
    (assessRiskWithDirectionalPriceTolerance ⟨1, 50⟩ 100 101 Side.BUY (1/2)).map
        RiskAssessment.isValid
      = (checkPriceTolerance 100 101 (some Side.BUY) (1/2)).map
        PriceToleranceCheck.shouldExecute :=
  assessRisk_always_valid_and_verdict ⟨1, 50⟩ 100 101 (1/2) Side.BUY (by norm_num)

end Nof1
